import Mathlib

/-!
# Verification of the `code-decoder` configuration resolution core

Shallow embedding of the configuration subsystem of the `code-decoder`
repository (package `internal/config`, whose source is listed in the
repository README, and the `initConfig` startup hook in
`cmd/code-decoder/cmd/root.go`), together with proofs settling the
specification claims about it.

Modelling conventions:
* The process environment is a function `String → Option String`
  (`none` = variable unset), so that "set to the empty string" is
  distinguishable from "unset", as `os.LookupEnv` distinguishes them.
  `os.Getenv` (which collapses the two) is modelled by `Getenv`.
* A parsed configuration file is an association list from dotted leaf
  keys (viper's lower-case keys, e.g. `"llm.api_key"`) to leaf values.
* The file system is a function from paths to a `FileState`
  (absent / present-but-malformed / present-and-parsed).
* Go `error` results of `Validate` are modelled by the inductive
  `ConfigError`; `render` produces the exact `fmt.Errorf` message text.
-/

namespace CodeDecoder

/-- `LLMConfig` from `internal/config` (listed in README.md):
`Provider`, `APIKey`, `Model`, `Endpoint`, all Go `string` fields. -/
structure LLMConfig where
  Provider : String
  APIKey : String
  Model : String
  Endpoint : String
deriving DecidableEq, Repr

/-- `DefaultsConfig` from `internal/config`: `OutputDir`, `Language`,
`Audience`, `Include`, `Exclude` (Go `[]string`), `MaxSize` (Go `int64`). -/
structure DefaultsConfig where
  OutputDir : String
  Language : String
  Audience : String
  Include : List String
  Exclude : List String
  MaxSize : Int
deriving DecidableEq, Repr

/-- `GitHubConfig` from `internal/config`: a single `Token` field. -/
structure GitHubConfig where
  Token : String
deriving DecidableEq, Repr

/-- `Config` from `internal/config`: the three sub-records. -/
structure Config where
  LLM : LLMConfig
  Defaults : DefaultsConfig
  GitHub : GitHubConfig
deriving DecidableEq, Repr

/-- The process environment: `some v` when the variable is set to `v`
(possibly `""`), `none` when unset. -/
def Env : Type := String → Option String

/-- Go's `os.Getenv`: the variable's value, or `""` when it is unset. -/
def Getenv (env : Env) (name : String) : String :=
  (env name).getD ""

/-- The `error` values `Config.Validate` can return, one constructor per
`fmt.Errorf` site in the Go source. -/
inductive ConfigError where
  /-- `"llm.api_key is required for provider '%s' and %s env var is not set"` -/
  | missingAPIKey (provider envVar : String)
  /-- `"llm.endpoint is required for local provider '%s'"` -/
  | missingEndpoint (provider : String)
  /-- `"invalid default audience: '%s'. Must be one of beginner, developer, contributor"` -/
  | invalidAudience (audience : String)
deriving DecidableEq, Repr

/-- The exact message text each `fmt.Errorf` call in `Validate` produces. -/
def ConfigError.render : ConfigError → String
  | .missingAPIKey p v =>
      "llm.api_key is required for provider '" ++ p ++ "' and " ++ v
        ++ " env var is not set"
  | .missingEndpoint p =>
      "llm.endpoint is required for local provider '" ++ p ++ "'"
  | .invalidAudience a =>
      "invalid default audience: '" ++ a
        ++ "'. Must be one of beginner, developer, contributor"

/-- The literal fallback variable name `Validate` consults
(`envVarName := "CODEDECODER_LLM_APIKEY"` in the Go source). -/
def fallbackAPIKeyVar : String := "CODEDECODER_LLM_APIKEY"

/-- The `validAudiences` map in `Validate`:
`map[string]bool{"beginner": true, "developer": true, "contributor": true}`;
lookup of an absent key yields `false`, as in Go. -/
def validAudiences (a : String) : Bool :=
  a == "beginner" || a == "developer" || a == "contributor"

/-- `func (c *Config) Validate() error` from `internal/config`, statement by
statement.  The empty-provider branch of the source is an empty `if` body
(every statement in it is commented out), so it contributes nothing.
`none` models a `nil` error.  The receiver is never written (the line
`c.LLM.APIKey = os.Getenv(envVarName)` is commented out in the source), so
the pure form takes `c` by value; `ValidateSt` below makes the absence of
receiver mutation explicit. -/
def Validate (env : Env) (c : Config) : Option ConfigError :=
  let isCloudProvider := c.LLM.Provider == "openai" || c.LLM.Provider == "anthropic"
  if isCloudProvider && c.LLM.APIKey == "" then
    if Getenv env fallbackAPIKeyVar == "" then
      some (.missingAPIKey c.LLM.Provider fallbackAPIKeyVar)
    else
      validateRest c
  else
    validateRest c
where
  /-- The part of `Validate` after the cloud-provider check: the
  local-provider endpoint check followed by the audience check. -/
  validateRest (c : Config) : Option ConfigError :=
    let isLocalProvider := c.LLM.Provider == "ollama" || c.LLM.Provider == "lmstudio"
    if isLocalProvider && c.LLM.Endpoint == "" then
      some (.missingEndpoint c.LLM.Provider)
    else if c.Defaults.Audience != "" && !validAudiences c.Defaults.Audience then
      some (.invalidAudience c.Defaults.Audience)
    else
      none

/-- `Validate` in state-passing form: the Go method has a pointer receiver
`c *Config`, so a faithful translation threads the receiver value through
and returns it next to the `error`.  No statement of the Go body assigns to
any field reachable from `c` (the only candidate assignment is commented
out), so every exit returns the receiver it was given. -/
def ValidateSt (env : Env) (c : Config) : Config × Option ConfigError :=
  let isCloudProvider := c.LLM.Provider == "openai" || c.LLM.Provider == "anthropic"
  if isCloudProvider && c.LLM.APIKey == "" then
    if Getenv env fallbackAPIKeyVar == "" then
      (c, some (.missingAPIKey c.LLM.Provider fallbackAPIKeyVar))
    else
      (c, Validate.validateRest c)
  else
    (c, Validate.validateRest c)

end CodeDecoder

namespace CodeDecoder

/-! ## Claims C1 and C2: provider-conditional validation rules -/

/-- An all-empty environment, for concrete witnesses. -/
def env0 : Env := fun _ => none

/-- An environment with exactly the fallback API-key variable set. -/
def envAPIKey (v : String) : Env :=
  fun n => if n = fallbackAPIKeyVar then some v else none

/-- C1 --- For every Config whose LLM provider is a cloud kind (`"openai"` or
`"anthropic"`), `Validate` fails with the "missing API key" error naming the
provider and the variable `CODEDECODER_LLM_APIKEY` exactly when the config's
`APIKey` is empty and that fallback environment variable is also empty; when
the fallback variable holds a non-empty value, validation passes even though
the file-sourced API key is empty (provided the audience rule, the only other
rule, is not violated). -/
theorem validate_cloud_api_key_rule (env : Env) (c : Config)
    (hcloud : c.LLM.Provider = "openai" ∨ c.LLM.Provider = "anthropic") :
    (Validate env c = some (.missingAPIKey c.LLM.Provider fallbackAPIKeyVar) ↔
      c.LLM.APIKey = "" ∧ Getenv env fallbackAPIKeyVar = "") ∧
    (c.LLM.APIKey = "" → Getenv env fallbackAPIKeyVar ≠ "" →
      (c.Defaults.Audience = "" ∨ validAudiences c.Defaults.Audience) →
      Validate env c = none) := by
  have hnotlocal : (c.LLM.Provider == "ollama" || c.LLM.Provider == "lmstudio") = false := by
    rcases hcloud with h | h <;> simp [h]
  constructor
  · constructor
    · intro hval
      by_contra hcon
      rw [Decidable.not_and_iff_or_not] at hcon
      have : Validate.validateRest c = some (.missingAPIKey c.LLM.Provider fallbackAPIKeyVar) := by
        rcases hcon with hk | he
        · simpa [Validate, hk] using hval
        · rcases hcase : decide (c.LLM.APIKey = "") with _ | _
          · have hk : ¬ (c.LLM.APIKey = "") := of_decide_eq_false hcase
            simpa [Validate, hk] using hval
          · have hk : c.LLM.APIKey = "" := of_decide_eq_true hcase
            simpa [Validate, hk, he] using hval
      simp only [Validate.validateRest, hnotlocal] at this
      split at this <;> simp_all
    · rintro ⟨hk, he⟩
      rcases hcloud with h | h <;> simp [Validate, h, hk, he]
  · intro hk he haud
    have hrest : Validate.validateRest c = none := by
      have : (c.Defaults.Audience != "" && !validAudiences c.Defaults.Audience) = false := by
        rcases haud with h | h <;> simp [h]
      simp [Validate.validateRest, hnotlocal, this]
    rcases hcloud with h | h <;> simp [Validate, h, hk, he, hrest]

/-- Witness for C1 at concrete inputs: the openai provider with an empty key
fails exactly as stated under the empty environment, and passes when the
fallback variable is set. -/
theorem validate_cloud_api_key_rule_witness :
    (Validate env0 ⟨⟨"openai", "", "gpt-4", ""⟩, ⟨"", "", "", [], [], 0⟩, ⟨""⟩⟩
        = some (.missingAPIKey "openai" fallbackAPIKeyVar)) ∧
    (Validate (envAPIKey "env-test-key")
        ⟨⟨"openai", "", "gpt-4", ""⟩, ⟨"", "", "", [], [], 0⟩, ⟨""⟩⟩ = none) := by
  have h₁ := validate_cloud_api_key_rule env0
      ⟨⟨"openai", "", "gpt-4", ""⟩, ⟨"", "", "", [], [], 0⟩, ⟨""⟩⟩ (Or.inl rfl)
  have h₂ := validate_cloud_api_key_rule (envAPIKey "env-test-key")
      ⟨⟨"openai", "", "gpt-4", ""⟩, ⟨"", "", "", [], [], 0⟩, ⟨""⟩⟩ (Or.inl rfl)
  exact ⟨h₁.1.mpr ⟨rfl, by decide⟩, h₂.2 rfl (by decide) (Or.inl rfl)⟩

/-- C2 --- For every Config whose LLM provider is a local kind (`"ollama"` or
`"lmstudio"`), `Validate` fails with the "missing endpoint" error naming the
provider if and only if the config's `Endpoint` is empty. -/
theorem validate_local_endpoint_rule (env : Env) (c : Config)
    (hlocal : c.LLM.Provider = "ollama" ∨ c.LLM.Provider = "lmstudio") :
    Validate env c = some (.missingEndpoint c.LLM.Provider) ↔
      c.LLM.Endpoint = "" := by
  have hnotcloud : (c.LLM.Provider == "openai" || c.LLM.Provider == "anthropic") = false := by
    rcases hlocal with h | h <;> simp [h]
  have hval : Validate env c = Validate.validateRest c := by
    simp [Validate, hnotcloud]
  rw [hval]
  constructor
  · intro h
    simp only [Validate.validateRest] at h
    split at h
    · simp_all
    · split at h <;> simp_all
  · intro h
    rcases hlocal with hp | hp <;> simp [Validate.validateRest, hp, h]

/-- Witness for C2 at a concrete input: the ollama provider with an empty
endpoint fails with the missing-endpoint error naming `ollama`. -/
theorem validate_local_endpoint_rule_witness :
    Validate env0 ⟨⟨"ollama", "", "llama3", ""⟩, ⟨"", "", "", [], [], 0⟩, ⟨""⟩⟩
      = some (.missingEndpoint "ollama") :=
  (validate_local_endpoint_rule env0
    ⟨⟨"ollama", "", "llama3", ""⟩, ⟨"", "", "", [], [], 0⟩, ⟨""⟩⟩ (Or.inl rfl)).mpr rfl

end CodeDecoder

namespace CodeDecoder

/-! ## Claims C8, C9, C10: enum checking, purity, and the receiver frame -/

/-- The four provider strings the source's category checks recognise. -/
def recognizedProviders : List String := ["openai", "anthropic", "ollama", "lmstudio"]

/-- C8 counterexample --- a Config whose provider is the non-empty,
unrecognized string `"deepseek"` (all other fields empty) passes `Validate`
under the empty environment: no invalid-enum error is raised for the
provider. -/
theorem validate_unknown_provider_passes :
    ¬ ("deepseek" ∈ recognizedProviders) ∧
    Validate env0 ⟨⟨"deepseek", "", "", ""⟩, ⟨"", "", "", [], [], 0⟩, ⟨""⟩⟩ = none := by
  constructor
  · decide
  · rfl

/-- C8 amended --- `Validate` performs no enum check on the provider: when the
provider is not one of the four recognized values, neither provider category
rule applies, and the result is decided by the audience check alone (the only
enum check in `Validate`). -/
theorem validate_unknown_provider_audience_only (env : Env) (c : Config)
    (h : c.LLM.Provider ∉ recognizedProviders) :
    Validate env c =
      if c.Defaults.Audience != "" && !validAudiences c.Defaults.Audience then
        some (.invalidAudience c.Defaults.Audience)
      else
        none := by
  simp only [recognizedProviders, List.mem_cons, List.mem_singleton, not_or] at h
  obtain ⟨h₁, h₂, h₃, h₄⟩ := h
  simp [Validate, Validate.validateRest, h₁, h₂, h₃, h₄]

/-- Witness for the amended C8 at a concrete input: provider `"deepseek"`
with the invalid audience `"expert"` fails with the audience enum error. -/
theorem validate_unknown_provider_audience_only_witness :
    Validate env0 ⟨⟨"deepseek", "", "", ""⟩, ⟨"", "", "expert", [], [], 0⟩, ⟨""⟩⟩
      = some (.invalidAudience "expert") := by
  rw [validate_unknown_provider_audience_only env0
    ⟨⟨"deepseek", "", "", ""⟩, ⟨"", "", "expert", [], [], 0⟩, ⟨""⟩⟩ (by decide)]
  rfl

/-- C9 counterexample --- `Validate` is not a function of the Config alone:
on one and the same Config (openai provider, empty API key), it returns `nil`
under an environment where `CODEDECODER_LLM_APIKEY` is set, and an error
under the empty environment.  The result therefore depends on the process
environment, which `Validate` reads via `os.Getenv`. -/
theorem validate_depends_on_environment :
    Validate (envAPIKey "k") ⟨⟨"openai", "", "", ""⟩, ⟨"", "", "", [], [], 0⟩, ⟨""⟩⟩ = none ∧
    Validate env0 ⟨⟨"openai", "", "", ""⟩, ⟨"", "", "", [], [], 0⟩, ⟨""⟩⟩
      = some (.missingAPIKey "openai" fallbackAPIKeyVar) ∧
    (none : Option ConfigError) ≠ some (.missingAPIKey "openai" fallbackAPIKeyVar) := by
  refine ⟨rfl, rfl, by simp⟩

/-- C9 amended --- `Validate` has no side effects, but it does read the
environment variable `CODEDECODER_LLM_APIKEY`: its result is determined by
the Config together with the `os.Getenv` view of that single variable, so two
runs on equal Configs agree whenever that variable's value agrees. -/
theorem validate_deterministic_in_config_and_fallback_var
    (env₁ env₂ : Env) (c : Config)
    (h : Getenv env₁ fallbackAPIKeyVar = Getenv env₂ fallbackAPIKeyVar) :
    Validate env₁ c = Validate env₂ c := by
  simp [Validate, h]

/-- Witness for the amended C9 at concrete inputs: two distinct environments
agreeing on `CODEDECODER_LLM_APIKEY` give the same validation result. -/
theorem validate_deterministic_witness :
    Validate (fun n => if n = "OTHER_VAR" then some "x" else none)
        ⟨⟨"openai", "", "", ""⟩, ⟨"", "", "", [], [], 0⟩, ⟨""⟩⟩
      = Validate env0 ⟨⟨"openai", "", "", ""⟩, ⟨"", "", "", [], [], 0⟩, ⟨""⟩⟩ :=
  validate_deterministic_in_config_and_fallback_var
    (fun n => if n = "OTHER_VAR" then some "x" else none) env0
    ⟨⟨"openai", "", "", ""⟩, ⟨"", "", "", [], [], 0⟩, ⟨""⟩⟩ (by decide)

/-- C10 --- `Validate` never mutates its receiver: in the state-passing
translation `ValidateSt`, the Config returned is the Config given, on every
path (error or `nil`), and its error component agrees with the pure
`Validate`; in particular, when a cloud-provider Config with an empty
`APIKey` passes only because the fallback variable is set, the `APIKey`
field is still empty afterwards rather than populated from the environment
(that assignment is commented out in the source). -/
theorem validateSt_frame (env : Env) (c : Config) :
    (ValidateSt env c).1 = c ∧
    (ValidateSt env c).2 = Validate env c ∧
    (c.LLM.APIKey = "" → ((ValidateSt env c).1).LLM.APIKey = "") := by
  refine ⟨?_, ?_, ?_⟩
  · simp only [ValidateSt]
    split
    · split <;> rfl
    · rfl
  · simp only [ValidateSt, Validate]
    split
    · split <;> rfl
    · rfl
  · intro h
    simp only [ValidateSt]
    split
    · split <;> simpa using h
    · simpa using h

end CodeDecoder

namespace CodeDecoder

/-! ## The file-loading and merging pipeline (`LoadConfig` and viper)

`LoadConfig` delegates file discovery, parsing and environment overlay to
the viper library; the model below reproduces the viper behaviour the Go
code exercises:

* `SetConfigFile p` + `ReadInConfig`: read exactly `p`; a missing or
  malformed file is an error (a missing explicit file surfaces as a plain
  `*PathError`, not as `viper.ConfigFileNotFoundError`, which viper only
  produces from the default-location search).
* `AddConfigPath` + `SetConfigName "config"` + `ReadInConfig`: probe the
  registered directories in the order they were added and take the first
  directory containing a config file; if none exists the result is
  `ConfigFileNotFoundError`; if the first existing candidate fails to
  parse, that is an ordinary read error --- viper does not fall through to
  later candidates.  Each directory is modelled by one candidate file path.
* `SetEnvPrefix "CODEDECODER"` + `SetEnvKeyReplacer(".", "_")` +
  `AutomaticEnv` + `Unmarshal`: `Unmarshal` decodes `v.AllSettings()`,
  which enumerates only the keys viper already knows (here: the keys of
  the loaded file; no defaults, overrides or explicitly bound variables
  exist in this code) and reads each of them through `v.Get`, where the
  derived environment variable, when set to a non-empty value, takes
  precedence over the file value (`getEnv` ignores empty values because
  `allowEmptyEnv` defaults to `false` and is never enabled here).  A
  variable for a key absent from the file tree is therefore not consulted
  by `Unmarshal`.
* `Unmarshal` decodes with `WeaklyTypedInput: true` and the
  `StringToSliceHookFunc(",")` decode hook, so an environment string can
  populate the `[]string` and `int64` fields.
-/

/-- A leaf value of the parsed configuration tree: a YAML scalar string, a
YAML string sequence, or a YAML integer. -/
inductive CVal where
  | str (s : String)
  | strList (l : List String)
  | int (n : Int)
deriving DecidableEq, Repr

/-- A parsed configuration file, as viper keeps it: an association list from
dotted lower-case leaf keys (e.g. `"llm.api_key"`) to leaf values. -/
abbrev Tree : Type := List (String × CVal)

/-- Lookup of a leaf key in a parsed file tree. -/
def Tree.get (t : Tree) (k : String) : Option CVal :=
  (t.find? (fun p => p.1 == k)).map (fun p => p.2)

/-- What the file system holds at a given path. -/
inductive FileState where
  | absent
  | malformed
  | parsed (t : Tree)
deriving DecidableEq, Repr

/-- The file system: each path is absent, unparseable, or parses to a tree. -/
def FS : Type := String → FileState

/-- The environment-variable name viper derives for a leaf key:
`mergeWithEnvPrefix` upper-cases `"CODEDECODER_" + key`
(`strings.ToUpper`, character-wise), then the `EnvKeyReplacer` turns every
`"."` into `"_"` (so `llm.provider` becomes `CODEDECODER_LLM_PROVIDER`).
Both steps are character-wise on these ASCII keys, so they are modelled by
one character map. -/
def envKeyName (key : String) : String :=
  String.mk (("CODEDECODER_" ++ key).data.map
    (fun c => let u := c.toUpper; if u = '.' then '_' else u))

/-- `v.Get` as `Unmarshal` uses it, for a key enumerated by `AllSettings`:
the derived environment variable wins when set to a non-empty value,
otherwise the file value.  viper's `getEnv` discards an empty environment
value unless `AllowEmptyEnv(true)` was called --- `allowEmptyEnv` defaults
to `false` and this repository never enables it --- so a variable set to
`""` falls back to the file value exactly like an unset one.  A key absent
from the file tree is not enumerated at all (`none`). -/
def viperGet (env : Env) (t : Tree) (k : String) : Option CVal :=
  match t.get k with
  | none => none
  | some fileVal =>
      match env (envKeyName k) with
      | some v => if v = "" then some fileVal else some (.str v)
      | none => some fileVal

/-- `StringToSliceHookFunc(",")`: the empty string decodes to the empty
slice, any other string is split on `","`. -/
def stringToSlice (v : String) : List String :=
  if v = "" then [] else v.splitOn ","

/-- mapstructure decode of a leaf value into a `string` field
(`WeaklyTypedInput` renders an integer with `strconv.FormatInt`; a sequence
cannot decode into a string, so `Unmarshal` errors). -/
def decodeString : CVal → Option String
  | .str s => some s
  | .int n => some (toString n)
  | .strList _ => none

/-- mapstructure decode of a leaf value into a `[]string` field (a scalar
string goes through `StringToSliceHookFunc(",")` first; a non-slice scalar
such as an integer is lifted by the weakly-typed decode into a one-element
slice whose element is then rendered as a string). -/
def decodeStrList : CVal → Option (List String)
  | .strList l => some l
  | .str s => some (stringToSlice s)
  | .int n => some [toString n]

/-- mapstructure decode of a leaf value into an `int64` field
(`WeaklyTypedInput` turns the empty string into `"0"` and parses with
`strconv.ParseInt(s, 0, 64)`, failing on non-numeric text and on values
outside the `int64` range; of the base-0 formats only optionally signed
decimal is modelled; a sequence fails). -/
def decodeInt : CVal → Option Int
  | .int n => some n
  | .str s =>
      ((if s = "" then "0" else s).toInt?).bind
        (fun n => if -(2 ^ 63) ≤ n ∧ n < 2 ^ 63 then some n else none)
  | .strList _ => none

/-- One `string` field of the decoded struct: zero value `""` when the key
is not enumerated, otherwise the decoded `v.Get` result. -/
def fieldStr (env : Env) (t : Tree) (k : String) : Option String :=
  match viperGet env t k with
  | none => some ""
  | some v => decodeString v

/-- One `[]string` field of the decoded struct (zero value `[]`). -/
def fieldStrList (env : Env) (t : Tree) (k : String) : Option (List String) :=
  match viperGet env t k with
  | none => some []
  | some v => decodeStrList v

/-- One `int64` field of the decoded struct (zero value `0`). -/
def fieldInt (env : Env) (t : Tree) (k : String) : Option Int :=
  match viperGet env t k with
  | none => some 0
  | some v => decodeInt v

/-- `v.Unmarshal(&cfg)`: decode every leaf key of the `Config` schema
(`mapstructure` tags from the struct definitions) from `AllSettings`,
`none` modelling a decode error (any field failing to decode fails the
whole `Unmarshal`). -/
def unmarshal (env : Env) (t : Tree) : Option Config :=
  match fieldStr env t "llm.provider", fieldStr env t "llm.api_key",
      fieldStr env t "llm.model", fieldStr env t "llm.endpoint",
      fieldStr env t "defaults.output_dir", fieldStr env t "defaults.language",
      fieldStr env t "defaults.audience", fieldStrList env t "defaults.include",
      fieldStrList env t "defaults.exclude", fieldInt env t "defaults.max_size",
      fieldStr env t "github.token" with
  | some provider, some apiKey, some model, some endpoint, some outputDir,
    some language, some audience, some includePats, some excludePats,
    some maxSize, some token =>
      some ⟨⟨provider, apiKey, model, endpoint⟩,
            ⟨outputDir, language, audience, includePats, excludePats, maxSize⟩,
            ⟨token⟩⟩
  | _, _, _, _, _, _, _, _, _, _, _ => none

/-- The default-location candidates, in the order the source registers them:
`AddConfigPath(filepath.Join(home, ".config", "code-decoder"))` first, then
`AddConfigPath(".")` (both in `LoadConfig` and in root.go's `initConfig`),
with `SetConfigName("config")` / yaml type.  One candidate file models each
registered directory. -/
def defaultCandidates (home : String) : List String :=
  [home ++ "/.config/code-decoder/config.yaml", "./config.yaml"]

/-- Result of viper's `ReadInConfig` over a candidate list. -/
inductive ReadResult where
  | notFound
  | parseError (path : String)
  | ok (path : String) (t : Tree)
deriving DecidableEq, Repr

/-- viper's default-location search: the first candidate that exists is the
one used; if it fails to parse, that is a `parseError`, with no fall-through
to later candidates; if no candidate exists, `ConfigFileNotFoundError`. -/
def searchRead (fs : FS) : List String → ReadResult
  | [] => .notFound
  | p :: rest =>
      match fs p with
      | .absent => searchRead fs rest
      | .malformed => .parseError p
      | .parsed t => .ok p t

/-- The `error` results of `LoadConfig`, one constructor per `return nil,
err` site.  `specifiedNotFound` mirrors the `"config file specified but not
found"` branch; it is unreachable because viper only produces
`ConfigFileNotFoundError` from the default-location search, which runs only
when `cfgFile == ""`. -/
inductive LoadError where
  /-- `"failed to get user home directory: %w"` -/
  | homeDirFailed
  /-- `"config file specified but not found: %s"` (dead branch, see above) -/
  | specifiedNotFound (path : String)
  /-- `"failed to read config file: %w"` -/
  | readFailed
  /-- `"failed to unmarshal config: %w"` -/
  | unmarshalFailed
  /-- `"invalid configuration: %w"` -/
  | invalidConfig (e : ConfigError)
deriving DecidableEq, Repr

/-- Steps 5--7 of `LoadConfig`: unmarshal the (possibly empty) merged tree
and validate the result. -/
def finishLoad (env : Env) (t : Tree) : Except LoadError Config :=
  match unmarshal env t with
  | none => .error .unmarshalFailed
  | some cfg =>
      match Validate env cfg with
      | some e => .error (.invalidConfig e)
      | none => .ok cfg

/-- `func LoadConfig(cfgFile string) (*Config, error)` from
`internal/config` (listed in README.md).  `home` is the
`os.UserHomeDir()` result (`none` = lookup failed), consulted only on the
default-location branch.  With an explicit `cfgFile`, exactly that file is
read and any failure is returned; on the default-location branch a missing
file is ignored (empty tree) while a present-but-unparseable first
candidate is a fatal read error. -/
def LoadConfig (fs : FS) (env : Env) (home : Option String)
    (cfgFile : String) : Except LoadError Config :=
  if cfgFile = "" then
    match home with
    | none => .error .homeDirFailed
    | some hd =>
        match searchRead fs (defaultCandidates hd) with
        | .notFound => finishLoad env []
        | .parseError _ => .error .readFailed
        | .ok _ t => finishLoad env t
  else
    match fs cfgFile with
    | .absent => .error .readFailed
    | .malformed => .error .readFailed
    | .parsed t => finishLoad env t

/-- Observable outcome of root.go's `initConfig` startup hook:
whether `os.Exit` was reached (and with which code), which config file was
announced as used, and whether the "Error reading config file" warning for
a present-but-unparseable default-location file was printed to stderr. -/
structure InitOutcome where
  exitCode : Option Nat
  usedFile : Option String
  warnedReadError : Bool
deriving DecidableEq, Repr

/-- `initConfig` from `cmd/code-decoder/cmd/root.go`: with `--config`,
a failure to read that file prints an error and exits 1; without it, the
default locations are searched (same registration order: home directory
first, then `"."`); a present-but-unparseable candidate prints a warning
but leaves `configLoaded` false, and the final `!configLoaded && cfgFile
== ""` check then prints "Configuration file not found." and exits 1,
as it also does when no candidate exists at all. -/
def initConfig (fs : FS) (home : String) (cfgFile : String) : InitOutcome :=
  if cfgFile = "" then
    match searchRead fs (defaultCandidates home) with
    | .ok p _ => ⟨none, some p, false⟩
    | .parseError _ => ⟨some 1, none, true⟩
    | .notFound => ⟨some 1, none, false⟩
  else
    match fs cfgFile with
    | .parsed _ => ⟨none, some cfgFile, false⟩
    | .absent => ⟨some 1, none, false⟩
    | .malformed => ⟨some 1, none, false⟩

/-- The all-zero `Config` that unmarshalling an empty tree produces. -/
def emptyConfig : Config :=
  ⟨⟨"", "", "", ""⟩, ⟨"", "", "", [], [], 0⟩, ⟨""⟩⟩

end CodeDecoder

namespace CodeDecoder

/-! ## Claims C3--C6: file resolution -/

/-- A home directory for the concrete resolution scenarios. -/
def homeDir : String := "/home/user"

/-- A file system holding a parseable config file at BOTH default
locations, with distinct providers so the two files can be told apart. -/
def fsBoth : FS := fun p =>
  if p = "/home/user/.config/code-decoder/config.yaml" then
    .parsed [("llm.provider", .str "anthropic"), ("llm.api_key", .str "home-key")]
  else if p = "./config.yaml" then
    .parsed [("llm.provider", .str "openai"), ("llm.api_key", .str "cwd-key")]
  else .absent

/-- C3 --- contrary to the claimed order (current directory first, then home
directory) and to `LoadConfig`'s own precedence comment, the source registers
the home-directory path *before* `"."`, so when both default locations hold
a valid config file, the home-directory file is the one used: here the
current-directory candidate exists and parses (provider `openai`), yet both
`LoadConfig` and root.go's `initConfig` resolve the home-directory file
(provider `anthropic`). -/
theorem loadConfig_home_probed_before_cwd :
    fsBoth "./config.yaml" =
      .parsed [("llm.provider", .str "openai"), ("llm.api_key", .str "cwd-key")] ∧
    searchRead fsBoth (defaultCandidates homeDir) =
      .ok "/home/user/.config/code-decoder/config.yaml"
        [("llm.provider", .str "anthropic"), ("llm.api_key", .str "home-key")] ∧
    LoadConfig fsBoth env0 (some homeDir) "" =
      .ok ⟨⟨"anthropic", "home-key", "", ""⟩, ⟨"", "", "", [], [], 0⟩, ⟨""⟩⟩ ∧
    (initConfig fsBoth homeDir "").usedFile =
      some "/home/user/.config/code-decoder/config.yaml" ∧
    ("anthropic" : String) ≠ "openai" := by
  exact ⟨rfl, rfl, rfl, rfl, by decide⟩

/-- C4 --- with a non-empty explicit config path, resolution reads exactly
that file: the result depends only on the file system's state at that path
(so default-location files, present or not, and the home directory are never
consulted), and a missing or malformed explicit file makes `LoadConfig`
return a fatal read error. -/
theorem loadConfig_explicit_path_exact (fs₁ fs₂ : FS) (env : Env)
    (home₁ home₂ : Option String) (p : String) (hp : p ≠ "")
    (hagree : fs₁ p = fs₂ p) :
    LoadConfig fs₁ env home₁ p = LoadConfig fs₂ env home₂ p ∧
    ((fs₁ p = .absent ∨ fs₁ p = .malformed) →
      LoadConfig fs₁ env home₁ p = .error .readFailed) := by
  constructor
  · simp only [LoadConfig, if_neg hp, hagree]
  · rintro (h | h) <;> simp [LoadConfig, if_neg hp, h]

/-- Witness for C4 at a concrete input: an explicit path that does not exist
is fatal even though both default-location files of `fsBoth` exist and
parse. -/
theorem loadConfig_explicit_path_exact_witness :
    ("/tmp/missing.yaml" : String) ≠ "" ∧
    LoadConfig fsBoth env0 (some homeDir) "/tmp/missing.yaml"
      = .error .readFailed :=
  ⟨by decide,
    (loadConfig_explicit_path_exact fsBoth fsBoth env0 (some homeDir)
      (some homeDir) "/tmp/missing.yaml" (by decide) rfl).2 (Or.inl rfl)⟩

/-- C5 --- with no explicit path and no config file at either default
location, resolution is non-fatal: `LoadConfig` continues with the empty
tree, unmarshals it to the all-zero Config, still runs `Validate` on that
Config, and returns it. -/
theorem loadConfig_no_default_file_non_fatal (fs : FS) (env : Env) (hd : String)
    (h1 : fs (hd ++ "/.config/code-decoder/config.yaml") = .absent)
    (h2 : fs "./config.yaml" = .absent) :
    LoadConfig fs env (some hd) "" = finishLoad env [] ∧
    unmarshal env [] = some emptyConfig ∧
    LoadConfig fs env (some hd) "" =
      (match Validate env emptyConfig with
        | some e => .error (.invalidConfig e)
        | none => .ok emptyConfig) ∧
    LoadConfig fs env (some hd) "" = .ok emptyConfig := by
  have hsearch : searchRead fs (defaultCandidates hd) = .notFound := by
    simp [searchRead, defaultCandidates, h1, h2]
  have hun : unmarshal env [] = some emptyConfig := rfl
  have hval : Validate env emptyConfig = none := rfl
  have hload : LoadConfig fs env (some hd) "" = finishLoad env [] := by
    simp [LoadConfig, hsearch]
  refine ⟨hload, hun, ?_, ?_⟩
  · rw [hload]
    simp [finishLoad, hun]
  · rw [hload]
    simp [finishLoad, hun, hval]

/-- Witness for C5 at a concrete input: the everywhere-absent file system
under the empty environment resolves to the all-zero Config. -/
theorem loadConfig_no_default_file_non_fatal_witness :
    LoadConfig (fun _ => .absent) env0 (some homeDir) "" = .ok emptyConfig :=
  (loadConfig_no_default_file_non_fatal (fun _ => .absent) env0 homeDir
    rfl rfl).2.2.2

/-- A file system whose only entry is a present-but-unparseable file at the
home default location. -/
def fsMalHome : FS := fun p =>
  if p = "/home/user/.config/code-decoder/config.yaml" then .malformed
  else .absent

/-- C6 counterexample --- a default-location candidate that exists but fails
to parse is NOT non-fatal: at this concrete file system `LoadConfig` aborts
with a read error, whereas with the file absent it would have proceeded to
the all-zero Config; root.go's `initConfig` does print the warning, but then
exits with code 1 all the same. -/
theorem loadConfig_malformed_default_aborts :
    fsMalHome "/home/user/.config/code-decoder/config.yaml" = .malformed ∧
    LoadConfig fsMalHome env0 (some homeDir) "" = .error .readFailed ∧
    LoadConfig (fun _ => .absent) env0 (some homeDir) "" = .ok emptyConfig ∧
    ((.error .readFailed : Except LoadError Config) ≠ .ok emptyConfig) ∧
    initConfig fsMalHome homeDir "" = ⟨some 1, none, true⟩ := by
  refine ⟨rfl, rfl, rfl, by simp, rfl⟩

/-- C6 amended --- when, with no explicit path, the first existing
default-location candidate fails to parse, `LoadConfig` returns a fatal
read error (as in the explicit-path case) instead of proceeding without the
file's contribution; root.go's `initConfig` reports the parse failure as a
stderr warning but still exits with code 1, because no config file was
loaded. -/
theorem loadConfig_malformed_default_fatal (fs : FS) (env : Env) (hd p : String)
    (h : searchRead fs (defaultCandidates hd) = .parseError p) :
    LoadConfig fs env (some hd) "" = .error .readFailed ∧
    (initConfig fs hd "").exitCode = some 1 ∧
    (initConfig fs hd "").warnedReadError = true := by
  refine ⟨?_, ?_, ?_⟩ <;> simp [LoadConfig, initConfig, h]

/-- Witness for the amended C6 at a concrete input. -/
theorem loadConfig_malformed_default_fatal_witness :
    LoadConfig fsMalHome env0 (some homeDir) "" = .error .readFailed ∧
    (initConfig fsMalHome homeDir "").exitCode = some 1 ∧
    (initConfig fsMalHome homeDir "").warnedReadError = true :=
  loadConfig_malformed_default_fatal fsMalHome env0 homeDir
    "/home/user/.config/code-decoder/config.yaml" rfl

end CodeDecoder

namespace CodeDecoder

/-! ## Claim C7: environment-variable overrides -/

/-- The leaf keys of the `Config` schema (the `mapstructure` tags of the
three sub-records, dotted under their top-level sections). -/
def leafKeys : List String :=
  ["llm.provider", "llm.api_key", "llm.model", "llm.endpoint",
   "defaults.output_dir", "defaults.language", "defaults.audience",
   "defaults.include", "defaults.exclude", "defaults.max_size",
   "github.token"]

/-- The environment-variable names the claim expects for `leafKeys`, in
order. -/
def derivedEnvNames : List String :=
  ["CODEDECODER_LLM_PROVIDER", "CODEDECODER_LLM_API_KEY",
   "CODEDECODER_LLM_MODEL", "CODEDECODER_LLM_ENDPOINT",
   "CODEDECODER_DEFAULTS_OUTPUT_DIR", "CODEDECODER_DEFAULTS_LANGUAGE",
   "CODEDECODER_DEFAULTS_AUDIENCE", "CODEDECODER_DEFAULTS_INCLUDE",
   "CODEDECODER_DEFAULTS_EXCLUDE", "CODEDECODER_DEFAULTS_MAX_SIZE",
   "CODEDECODER_GITHUB_TOKEN"]

/-- The leaf value a Config holds at a given schema key. -/
def fieldCVal (c : Config) : String → CVal
  | "llm.provider" => .str c.LLM.Provider
  | "llm.api_key" => .str c.LLM.APIKey
  | "llm.model" => .str c.LLM.Model
  | "llm.endpoint" => .str c.LLM.Endpoint
  | "defaults.output_dir" => .str c.Defaults.OutputDir
  | "defaults.language" => .str c.Defaults.Language
  | "defaults.audience" => .str c.Defaults.Audience
  | "defaults.include" => .strList c.Defaults.Include
  | "defaults.exclude" => .strList c.Defaults.Exclude
  | "defaults.max_size" => .int c.Defaults.MaxSize
  | "github.token" => .str c.GitHub.Token
  | _ => .str ""

/-- The typed value an environment string decodes to at a given schema key:
each field's mapstructure decoder applied to the environment scalar
(`[]string` fields go through `StringToSliceHookFunc(",")`, the `int64`
field through the weakly-typed string-to-integer parse, which can fail). -/
def envDecode (k v : String) : Option CVal :=
  match k with
  | "defaults.include" => (decodeStrList (.str v)).map .strList
  | "defaults.exclude" => (decodeStrList (.str v)).map .strList
  | "defaults.max_size" => (decodeInt (.str v)).map .int
  | _ => (decodeString (.str v)).map .str

theorem fieldStr_env (env : Env) (t : Tree) (k v : String)
    (hfile : (t.get k).isSome) (henv : env (envKeyName k) = some v)
    (hv : v ≠ "") :
    fieldStr env t k = some v := by
  obtain ⟨w, hw⟩ := Option.isSome_iff_exists.mp hfile
  simp [fieldStr, viperGet, hw, henv, hv, decodeString]

theorem fieldStrList_env (env : Env) (t : Tree) (k v : String)
    (hfile : (t.get k).isSome) (henv : env (envKeyName k) = some v)
    (hv : v ≠ "") :
    fieldStrList env t k = some (stringToSlice v) := by
  obtain ⟨w, hw⟩ := Option.isSome_iff_exists.mp hfile
  simp [fieldStrList, viperGet, hw, henv, hv, decodeStrList]

theorem fieldInt_env (env : Env) (t : Tree) (k v : String)
    (hfile : (t.get k).isSome) (henv : env (envKeyName k) = some v)
    (hv : v ≠ "") :
    fieldInt env t k = decodeInt (.str v) := by
  obtain ⟨w, hw⟩ := Option.isSome_iff_exists.mp hfile
  simp [fieldInt, viperGet, hw, henv, hv]

/-- An environment with exactly `CODEDECODER_LLM_PROVIDER` set. -/
def envProv : Env :=
  fun n => if n = "CODEDECODER_LLM_PROVIDER" then some "anthropic" else none

/-- An environment with exactly `CODEDECODER_LLM_PROVIDER` set to the empty
string. -/
def envProvEmpty : Env :=
  fun n => if n = "CODEDECODER_LLM_PROVIDER" then some "" else none

/-- C7 counterexample --- an environment variable with the correctly derived
name does NOT reach the resolved Config when the loaded file did not supply
that key: `Unmarshal` decodes `AllSettings()`, which enumerates only keys
viper already knows, so with a loaded default-location file containing only
`github.token`, the set variable `CODEDECODER_LLM_PROVIDER` leaves the
resolved `Provider` at its zero value `""` instead of `"anthropic"`. -/
theorem loadConfig_env_only_key_not_injected :
    envProv (envKeyName "llm.provider") = some "anthropic" ∧
    LoadConfig
        (fun p => if p = "./config.yaml" then
            .parsed [("github.token", .str "tok")]
          else .absent)
        envProv (some homeDir) "" =
      .ok ⟨⟨"", "", "", ""⟩, ⟨"", "", "", [], [], 0⟩, ⟨"tok"⟩⟩ ∧
    ("" : String) ≠ "anthropic" := by
  exact ⟨by decide, rfl, by decide⟩

/-- Inversion of a successful `unmarshal`: each field of the resulting
Config is the decoded value of its own schema key. -/
theorem unmarshal_fields (env : Env) (t : Tree) (cfg : Config)
    (hu : unmarshal env t = some cfg) :
    fieldStr env t "llm.provider" = some cfg.LLM.Provider ∧
    fieldStr env t "llm.api_key" = some cfg.LLM.APIKey ∧
    fieldStr env t "llm.model" = some cfg.LLM.Model ∧
    fieldStr env t "llm.endpoint" = some cfg.LLM.Endpoint ∧
    fieldStr env t "defaults.output_dir" = some cfg.Defaults.OutputDir ∧
    fieldStr env t "defaults.language" = some cfg.Defaults.Language ∧
    fieldStr env t "defaults.audience" = some cfg.Defaults.Audience ∧
    fieldStrList env t "defaults.include" = some cfg.Defaults.Include ∧
    fieldStrList env t "defaults.exclude" = some cfg.Defaults.Exclude ∧
    fieldInt env t "defaults.max_size" = some cfg.Defaults.MaxSize ∧
    fieldStr env t "github.token" = some cfg.GitHub.Token := by
  rcases h1 : fieldStr env t "llm.provider" with _ | p
  · simp [unmarshal, h1] at hu
  rcases h2 : fieldStr env t "llm.api_key" with _ | ak
  · simp [unmarshal, h1, h2] at hu
  rcases h3 : fieldStr env t "llm.model" with _ | m
  · simp [unmarshal, h1, h2, h3] at hu
  rcases h4 : fieldStr env t "llm.endpoint" with _ | ep
  · simp [unmarshal, h1, h2, h3, h4] at hu
  rcases h5 : fieldStr env t "defaults.output_dir" with _ | od
  · simp [unmarshal, h1, h2, h3, h4, h5] at hu
  rcases h6 : fieldStr env t "defaults.language" with _ | lg
  · simp [unmarshal, h1, h2, h3, h4, h5, h6] at hu
  rcases h7 : fieldStr env t "defaults.audience" with _ | au
  · simp [unmarshal, h1, h2, h3, h4, h5, h6, h7] at hu
  rcases h8 : fieldStrList env t "defaults.include" with _ | inc
  · simp [unmarshal, h1, h2, h3, h4, h5, h6, h7, h8] at hu
  rcases h9 : fieldStrList env t "defaults.exclude" with _ | exc
  · simp [unmarshal, h1, h2, h3, h4, h5, h6, h7, h8, h9] at hu
  rcases h10 : fieldInt env t "defaults.max_size" with _ | ms
  · simp [unmarshal, h1, h2, h3, h4, h5, h6, h7, h8, h9, h10] at hu
  rcases h11 : fieldStr env t "github.token" with _ | tk
  · simp [unmarshal, h1, h2, h3, h4, h5, h6, h7, h8, h9, h10, h11] at hu
  simp only [unmarshal, h1, h2, h3, h4, h5, h6, h7, h8, h9, h10, h11,
    Option.some.injEq] at hu
  subst hu
  exact ⟨rfl, rfl, rfl, rfl, rfl, rfl, rfl, rfl, rfl, rfl, rfl⟩

/-- C7 amended --- for every leaf key of the schema, the derived environment
variable is `CODEDECODER_` + path with `_` for `.`, upper-cased (conjunct
two lists them all); and whenever the variable is set to a NON-empty value
AND the loaded file supplied a value for that key, the successfully resolved
Config holds the environment value for that key, overriding the file's
value.  A variable set to the empty string is ignored (viper's
`allowEmptyEnv` defaults to `false` and is never enabled), so the file's
value survives (conjunct three shows this concretely); and a variable for a
key the file did not supply is not injected (see the counterexample). -/
theorem unmarshal_env_overrides_file_key (env : Env) (t : Tree) (cfg : Config)
    (k v : String) (hk : k ∈ leafKeys)
    (hu : unmarshal env t = some cfg)
    (hfile : (t.get k).isSome)
    (henv : env (envKeyName k) = some v)
    (hv : v ≠ "") :
    some (fieldCVal cfg k) = envDecode k v ∧
    leafKeys.map envKeyName = derivedEnvNames ∧
    unmarshal envProvEmpty [("llm.provider", .str "openai")] =
      some ⟨⟨"openai", "", "", ""⟩, ⟨"", "", "", [], [], 0⟩, ⟨""⟩⟩ := by
  refine ⟨?_, by decide, rfl⟩
  obtain ⟨h1, h2, h3, h4, h5, h6, h7, h8, h9, h10, h11⟩ :=
    unmarshal_fields env t cfg hu
  simp only [leafKeys, List.mem_cons, List.not_mem_nil, or_false] at hk
  rcases hk with hk | hk | hk | hk | hk | hk | hk | hk | hk | hk | hk <;> subst hk
  · rw [fieldStr_env env t _ v hfile henv hv] at h1
    injection h1 with h
    exact congrArg (fun s => some (CVal.str s)) h.symm
  · rw [fieldStr_env env t _ v hfile henv hv] at h2
    injection h2 with h
    exact congrArg (fun s => some (CVal.str s)) h.symm
  · rw [fieldStr_env env t _ v hfile henv hv] at h3
    injection h3 with h
    exact congrArg (fun s => some (CVal.str s)) h.symm
  · rw [fieldStr_env env t _ v hfile henv hv] at h4
    injection h4 with h
    exact congrArg (fun s => some (CVal.str s)) h.symm
  · rw [fieldStr_env env t _ v hfile henv hv] at h5
    injection h5 with h
    exact congrArg (fun s => some (CVal.str s)) h.symm
  · rw [fieldStr_env env t _ v hfile henv hv] at h6
    injection h6 with h
    exact congrArg (fun s => some (CVal.str s)) h.symm
  · rw [fieldStr_env env t _ v hfile henv hv] at h7
    injection h7 with h
    exact congrArg (fun s => some (CVal.str s)) h.symm
  · rw [fieldStrList_env env t _ v hfile henv hv] at h8
    injection h8 with h
    exact congrArg (fun l => some (CVal.strList l)) h.symm
  · rw [fieldStrList_env env t _ v hfile henv hv] at h9
    injection h9 with h
    exact congrArg (fun l => some (CVal.strList l)) h.symm
  · rw [fieldInt_env env t _ v hfile henv hv] at h10
    show some (CVal.int cfg.Defaults.MaxSize) = (decodeInt (.str v)).map CVal.int
    rw [h10]
    rfl
  · rw [fieldStr_env env t _ v hfile henv hv] at h11
    injection h11 with h
    exact congrArg (fun s => some (CVal.str s)) h.symm

/-- Witness for the amended C7 at the repository test's own scenario: a file
supplying `llm.provider: openai` with `CODEDECODER_LLM_PROVIDER=anthropic`
set resolves to provider `anthropic`. -/
theorem unmarshal_env_overrides_file_key_witness :
    some (fieldCVal ⟨⟨"anthropic", "", "", ""⟩, ⟨"", "", "", [], [], 0⟩, ⟨""⟩⟩
        "llm.provider")
      = envDecode "llm.provider" "anthropic" ∧
    leafKeys.map envKeyName = derivedEnvNames ∧
    unmarshal envProvEmpty [("llm.provider", .str "openai")] =
      some ⟨⟨"openai", "", "", ""⟩, ⟨"", "", "", [], [], 0⟩, ⟨""⟩⟩ :=
  unmarshal_env_overrides_file_key envProv [("llm.provider", .str "openai")]
    ⟨⟨"anthropic", "", "", ""⟩, ⟨"", "", "", [], [], 0⟩, ⟨""⟩⟩
    "llm.provider" "anthropic" (by decide) rfl rfl (by decide) (by decide)

end CodeDecoder
